import Mathlib

/-!
Verification of the `andr-utility` command-relay broker (`src/app.py`).

The program keeps three module-level Python dicts:
  `command_queue`    : device_id (a JSON value)  -> list of command records
  `results_store`    : command_id (a string)     -> result record
  `device_last_seen` : device_id (a string)      -> timestamp
plus files written under the `uploads/` directory for blob results.

We model timestamps as natural numbers counting seconds (`RESULT_EXPIRY`
= 1 hour = 3600 s, `DEVICE_TIMEOUT` = 10 minutes = 600 s).  Python dicts
are modelled as association lists with Python's update semantics
(updating an existing key keeps its position, a new key is appended).
JSON values are modelled by the mutual inductive `Json`, with Python
truthiness `Json.truthy`.  The filesystem under `uploads/` is a map from
path to byte content.  Each Flask handler becomes a pure function from
the state (plus the request data and the current time, and for
`post_command` the freshly generated uuid) to a response and a new
state.
-/

namespace AndrUtility

/- JSON values as delivered by `request.json` / stored in `params`. -/
mutual
inductive Json where
  | null
  | bool (b : Bool)
  | num (n : Int)
  | str (s : String)
  | arr (l : JsonList)
  | obj (l : JsonObj)
deriving DecidableEq

inductive JsonList where
  | nil
  | cons (hd : Json) (tl : JsonList)
deriving DecidableEq

inductive JsonObj where
  | nil
  | cons (k : String) (v : Json) (tl : JsonObj)
deriving DecidableEq
end

/-- Python truthiness of a JSON value (`if data:`). -/
def Json.truthy : Json → Bool
  | .null => false
  | .bool b => b
  | .num n => decide (n ≠ 0)
  | .str s => decide (s ≠ "")
  | .arr .nil => false
  | .arr (.cons _ _) => true
  | .obj .nil => false
  | .obj (.cons _ _ _) => true

/-- Key lookup in a JSON object (`data['k']` / `'k' in data`). -/
def JsonObj.lookup : JsonObj → String → Option Json
  | .nil, _ => none
  | .cons k v tl, key => if k = key then some v else tl.lookup key

/-- `not data` for a dict: empty is falsy. -/
def JsonObj.isEmpty : JsonObj → Bool
  | .nil => true
  | .cons _ _ _ => false

section Dict

variable {α : Type} {β : Type} [DecidableEq α]

/-- `m[k]` / `k in m` for a Python dict modelled as an association list. -/
def dictGet (m : List (α × β)) (k : α) : Option β :=
  (m.find? (fun p => decide (p.1 = k))).map (fun p => p.2)

/-- `m[k] = v`: replace in place if the key exists, else append (Python
dict insertion-order semantics). -/
def dictSet (m : List (α × β)) (k : α) (v : β) : List (α × β) :=
  if (m.find? (fun p => decide (p.1 = k))).isSome then
    m.map (fun p => if p.1 = k then (k, v) else p)
  else
    m ++ [(k, v)]

/-- `del m[k]` (total: removing an absent key is a no-op, which also
models `os.remove` wrapped in `try/except: pass`). -/
def dictDel (m : List (α × β)) (k : α) : List (α × β) :=
  m.filter (fun p => decide (p.1 ≠ k))

end Dict

/-- One queued command record, as built by `post_command`. -/
structure Command where
  id : String
  action : Json
  params : Json
  timestamp : Nat
deriving DecidableEq

/-- A `results_store` record: either a saved file (keys `type = 'file'`,
`file_path`, `filename`, `timestamp`) or structured data (keys
`type = 'data'`, `data`, `timestamp`). -/
inductive ResultEntry where
  | file (file_path : String) (filename : String) (timestamp : Nat)
  | data (d : Json) (timestamp : Nat)
deriving DecidableEq

/-- The `timestamp` field of a result record. -/
def ResultEntry.timestamp : ResultEntry → Nat
  | .file _ _ t => t
  | .data _ t => t

/-- An uploaded multipart file: `file.filename` and its byte content. -/
structure FileUpload where
  filename : String
  content : List Nat
deriving DecidableEq

/-- The module-level mutable state of `app.py`, plus the `uploads/`
directory contents. -/
structure RelayState where
  command_queue : List (Json × List Command)
  results_store : List (String × ResultEntry)
  device_last_seen : List (String × Nat)
  disk : List (String × List Nat)
deriving DecidableEq

/-- State at process start: all three dicts empty, no uploaded files. -/
def initialState : RelayState :=
  { command_queue := [], results_store := [], device_last_seen := [], disk := [] }

/-- `RESULT_EXPIRY = timedelta(hours=1)`, in seconds. -/
def RESULT_EXPIRY : Nat := 3600

/-- `DEVICE_TIMEOUT = timedelta(minutes=10)`, in seconds. -/
def DEVICE_TIMEOUT : Nat := 600

/-- Response of `POST /command`. -/
inductive PostCommandResp where
  | error400 (msg : String)
  | success (command_id : String)
deriving DecidableEq

/-- Whether a `POST /command` response is the 400 error. -/
def PostCommandResp.isError : PostCommandResp → Bool
  | .error400 _ => true
  | .success _ => false

/-- `post_command` (`POST /command`, app.py lines 52-79).  `data` is the
parsed JSON body (`none` when absent or null; non-object bodies are not
modelled — in Python they raise before reaching the queue).  `newId` is
the generated `uuid.uuid4()` string, `now` the current time.  The
human-readable `message` field of the success response is not modelled. -/
def post_command (st : RelayState) (data : Option JsonObj) (now : Nat)
    (newId : String) : PostCommandResp × RelayState :=
  match data with
  | none => (.error400 "Missing device_id or action", st)
  | some d =>
    if d.isEmpty then (.error400 "Missing device_id or action", st)
    else
      match d.lookup "device_id", d.lookup "action" with
      | some device_id, some act =>
        let command : Command :=
          { id := newId, action := act,
            params := (d.lookup "params").getD (.obj .nil), timestamp := now }
        let q := (dictGet st.command_queue device_id).getD []
        (.success newId,
          { st with command_queue := dictSet st.command_queue device_id (q ++ [command]) })
      | _, _ => (.error400 "Missing device_id or action", st)

/-- `get_commands` (`GET /command/<device_id>`, app.py lines 81-93):
records the liveness touch, then atomically returns and clears the
pending queue.  The path parameter is a string, so the queue is read at
the JSON key `Json.str device_id`. -/
def get_commands (st : RelayState) (device_id : String) (now : Nat) :
    List Command × RelayState :=
  let st1 := { st with device_last_seen := dictSet st.device_last_seen device_id now }
  match dictGet st1.command_queue (.str device_id) with
  | none => ([], st1)
  | some cmds =>
    if cmds = [] then ([], st1)
    else (cmds,
      { st1 with command_queue := dictSet st1.command_queue (.str device_id) [] })

/-- Response of `POST /result/<command_id>`. -/
inductive PostResultResp where
  | success (message : String)
  | error400 (msg : String)
deriving DecidableEq

/-- Whether a `POST /result` response is the 400 error. -/
def PostResultResp.isError : PostResultResp → Bool
  | .success _ => false
  | .error400 _ => true

/-- The JSON fallthrough of `post_result` (app.py lines 118-128):
`data = request.json; if data: ...`.  `none` models an absent or
unparsable body (where Flask itself raises an error response). -/
def post_result_jsonBranch (st : RelayState) (command_id : String)
    (data : Option Json) (now : Nat) : PostResultResp × RelayState :=
  match data with
  | some d =>
    if d.truthy then
      (.success "Result stored",
        { st with results_store :=
            dictSet st.results_store command_id (.data d now) })
    else (.error400 "No data or file provided", st)
  | none => (.error400 "No data or file provided", st)

/-- `post_result` (`POST /result/<command_id>`, app.py lines 95-128).
If a file part is present and its filename is truthy (nonempty), the
file is saved to `uploads/{command_id}_{filename}` and a file record is
stored; otherwise it falls through to the JSON branch. -/
def post_result (st : RelayState) (command_id : String)
    (file : Option FileUpload) (data : Option Json) (now : Nat) :
    PostResultResp × RelayState :=
  match file with
  | some f =>
    if f.filename ≠ "" then
      let file_path := "uploads/" ++ command_id ++ "_" ++ f.filename
      let st1 := { st with disk := dictSet st.disk file_path f.content }
      (.success "File uploaded",
        { st1 with results_store :=
            dictSet st1.results_store command_id (.file file_path f.filename now) })
    else post_result_jsonBranch st command_id data now
  | none => post_result_jsonBranch st command_id data now

/-- Response of `GET /result/<command_id>`: the 404, a streamed file
(`send_file`, whose bytes are read from disk at response time), or the
stored JSON data. -/
inductive GetResultResp where
  | error404 (msg : String)
  | fileResp (content : Option (List Nat)) (filename : String)
  | dataResp (d : Json)
deriving DecidableEq

/-- `get_result` (`GET /result/<command_id>`, app.py lines 130-144). -/
def get_result (st : RelayState) (command_id : String) :
    GetResultResp × RelayState :=
  match dictGet st.results_store command_id with
  | none => (.error404 "Result not found or expired", st)
  | some (.file fp fn _) => (.fileResp (dictGet st.disk fp) fn, st)
  | some (.data d _) => (.dataResp d, st)

/-- One iteration of the `cleanup_old_data` loop body (app.py lines
23-37): collect the keys whose age strictly exceeds `RESULT_EXPIRY`,
remove the saved file of each expired file record (`os.remove` under
`try/except: pass`, i.e. a total delete), and delete the expired
entries.  Since dict keys are unique, deleting the collected keys one by
one equals filtering them out, and the per-key `'file_path' in record`
test equals matching the `file` constructor. -/
def cleanup_old_data_sweep (st : RelayState) (now : Nat) : RelayState :=
  let expired := st.results_store.filter
    (fun p => decide (now - p.2.timestamp > RESULT_EXPIRY))
  { st with
    results_store := st.results_store.filter
      (fun p => decide (¬ now - p.2.timestamp > RESULT_EXPIRY)),
    disk := expired.foldl (fun dsk p =>
      match p.2 with
      | .file fp _ _ => dictDel dsk fp
      | .data _ _ => dsk) st.disk }

/-- `home` (`GET /`, app.py lines 43-50): the `active_devices` count,
`len([d for d, t in device_last_seen.items() if now - t < DEVICE_TIMEOUT])`. -/
def home (st : RelayState) (now : Nat) : Nat :=
  ((st.device_last_seen.filter
      (fun p => decide (now - p.2 < DEVICE_TIMEOUT))).map (fun p => p.1)).length

/-- One row of the `GET /devices` listing. -/
structure DeviceInfo where
  last_seen : Nat
  seconds_ago : Nat
  status : String
deriving DecidableEq

/-- `list_devices` (`GET /devices`, app.py lines 146-158).  `last_seen`
is kept as the numeric timestamp rather than its `isoformat()` string. -/
def list_devices (st : RelayState) (now : Nat) : List (String × DeviceInfo) :=
  st.device_last_seen.map (fun p =>
    (p.1,
      { last_seen := p.2,
        seconds_ago := now - p.2,
        status := if now - p.2 < DEVICE_TIMEOUT then "online" else "offline" }))

/-! ## Dictionary lemmas -/

section DictLemmas

variable {α β γ : Type} [DecidableEq α]

theorem dictGet_cons (a : α) (b : β) (m : List (α × β)) (k : α) :
    dictGet ((a, b) :: m) k = if a = k then some b else dictGet m k := by
  by_cases h : a = k
  · simp [dictGet, List.find?_cons_of_pos, h]
  · simp [dictGet, List.find?_cons_of_neg, h]

theorem dictGet_append (m1 m2 : List (α × β)) (k : α) :
    dictGet (m1 ++ m2) k = (dictGet m1 k).or (dictGet m2 k) := by
  unfold dictGet
  rw [List.find?_append]
  cases m1.find? (fun p => decide (p.1 = k)) <;> simp

theorem dictGet_map_replace_self (m : List (α × β)) (k : α) (v : β)
    (hc : (m.find? (fun p => decide (p.1 = k))).isSome) :
    dictGet (m.map (fun p => if p.1 = k then (k, v) else p)) k = some v := by
  induction m with
  | nil => simp [List.find?] at hc
  | cons hd tl ih =>
    obtain ⟨a, b⟩ := hd
    by_cases h : a = k
    · simp [h, dictGet_cons]
    · have hc' : (tl.find? (fun p => decide (p.1 = k))).isSome := by
        rwa [List.find?_cons_of_neg _ (by simpa using h)] at hc
      simp [h, dictGet_cons, ih hc']

theorem dictGet_map_replace_ne (m : List (α × β)) (k k' : α) (v : β)
    (h : k' ≠ k) :
    dictGet (m.map (fun p => if p.1 = k then (k, v) else p)) k' = dictGet m k' := by
  induction m with
  | nil => rfl
  | cons hd tl ih =>
    obtain ⟨a, b⟩ := hd
    simp only [List.map_cons]
    by_cases hak : a = k
    · rw [if_pos hak, dictGet_cons, dictGet_cons,
        if_neg (fun hh : k = k' => h hh.symm),
        if_neg (fun hh : a = k' => h (hh.symm.trans hak))]
      exact ih
    · rw [if_neg hak, dictGet_cons, dictGet_cons]
      by_cases hak' : a = k'
      · rw [if_pos hak', if_pos hak']
      · rw [if_neg hak', if_neg hak']
        exact ih

theorem dictGet_set_self (m : List (α × β)) (k : α) (v : β) :
    dictGet (dictSet m k v) k = some v := by
  unfold dictSet
  cases hf : m.find? (fun p => decide (p.1 = k)) with
  | some q =>
    rw [if_pos (by rfl)]
    exact dictGet_map_replace_self m k v (by rw [hf]; rfl)
  | none =>
    rw [if_neg (by simp)]
    rw [dictGet_append]
    have hm : dictGet m k = none := by
      unfold dictGet; rw [hf]; rfl
    rw [hm]
    rw [dictGet_cons, if_pos rfl]
    rfl

theorem dictGet_set_ne (m : List (α × β)) (k k' : α) (v : β) (h : k' ≠ k) :
    dictGet (dictSet m k v) k' = dictGet m k' := by
  unfold dictSet
  cases hf : m.find? (fun p => decide (p.1 = k)) with
  | some q =>
    rw [if_pos (by rfl)]
    exact dictGet_map_replace_ne m k k' v h
  | none =>
    rw [if_neg (by simp)]
    rw [dictGet_append]
    have h1 : dictGet [(k, v)] k' = none := by
      rw [dictGet_cons, if_neg (fun hh : k = k' => h hh.symm)]
      rfl
    rw [h1]
    cases dictGet m k' <;> simp

theorem dictDel_cons (a : α) (b : β) (m : List (α × β)) (k : α) :
    dictDel ((a, b) :: m) k
      = if a = k then dictDel m k else (a, b) :: dictDel m k := by
  by_cases h : a = k <;> simp [dictDel, List.filter_cons, h]

theorem dictGet_del_self (m : List (α × β)) (k : α) :
    dictGet (dictDel m k) k = none := by
  induction m with
  | nil => rfl
  | cons hd tl ih =>
    obtain ⟨a, b⟩ := hd
    rw [dictDel_cons]
    by_cases h : a = k
    · simpa [h] using ih
    · simpa [dictGet_cons, h] using ih

theorem dictGet_del_ne (m : List (α × β)) (k k' : α) (h : k' ≠ k) :
    dictGet (dictDel m k) k' = dictGet m k' := by
  induction m with
  | nil => rfl
  | cons hd tl ih =>
    obtain ⟨a, b⟩ := hd
    rw [dictDel_cons, dictGet_cons]
    by_cases hak : a = k
    · rw [if_pos hak, if_neg (fun hh : a = k' => h (hh.symm.trans hak))]
      exact ih
    · rw [if_neg hak, dictGet_cons]
      by_cases hak' : a = k'
      · rw [if_pos hak', if_pos hak']
      · rw [if_neg hak', if_neg hak']
        exact ih

theorem dictGet_eq_none_of_not_mem_keys (m : List (α × β)) (k : α)
    (h : k ∉ m.map Prod.fst) :
    dictGet m k = none := by
  induction m with
  | nil => rfl
  | cons hd tl ih =>
    obtain ⟨a, b⟩ := hd
    simp only [List.map_cons, List.mem_cons] at h
    push_neg at h
    rw [dictGet_cons, if_neg (fun hh => h.1 hh.symm)]
    exact ih h.2

theorem dictGet_filter_none (m : List (α × β)) (q : α × β → Bool) (k : α)
    (h : dictGet m k = none) :
    dictGet (m.filter q) k = none := by
  induction m with
  | nil => rfl
  | cons hd tl ih =>
    obtain ⟨a, b⟩ := hd
    rw [dictGet_cons] at h
    by_cases hak : a = k
    · simp [hak] at h
    · rw [if_neg hak] at h
      rw [List.filter_cons]
      by_cases hq : q (a, b)
      · simp only [hq, if_true]
        rw [dictGet_cons, if_neg hak]
        exact ih h
      · simp only [hq, Bool.false_eq_true, if_false]
        exact ih h

/-- Looking a key up after filtering a unique-key dict: the entry
survives iff it passes the filter. -/
theorem dictGet_filter (m : List (α × β)) (q : α × β → Bool) (k : α)
    (hnodup : (m.map Prod.fst).Nodup) :
    dictGet (m.filter q) k =
      (match dictGet m k with
       | some v => if q (k, v) then some v else none
       | none => none) := by
  induction m with
  | nil => rfl
  | cons hd tl ih =>
    obtain ⟨a, b⟩ := hd
    rw [List.map_cons, List.nodup_cons] at hnodup
    rw [List.filter_cons, dictGet_cons]
    by_cases hak : a = k
    · subst hak
      rw [if_pos rfl]
      by_cases hq : q (a, b)
      · simp only [hq, if_true]
        rw [dictGet_cons, if_pos rfl]
      · simp only [hq, Bool.false_eq_true, if_false]
        exact dictGet_filter_none tl q a
          (dictGet_eq_none_of_not_mem_keys tl a hnodup.1)
    · rw [if_neg hak]
      by_cases hq : q (a, b)
      · simp only [hq, if_true]
        rw [dictGet_cons, if_neg hak]
        exact ih hnodup.2
      · simp only [hq, Bool.false_eq_true, if_false]
        exact ih hnodup.2

/-- Lookup in a key-preserving map of a dict. -/
theorem dictGet_map_keyPreserving (m : List (α × β)) (g : α × β → γ) (k : α) :
    dictGet (m.map (fun p => (p.1, g p))) k
      = (m.find? (fun p => decide (p.1 = k))).map g := by
  induction m with
  | nil => rfl
  | cons hd tl ih =>
    obtain ⟨a, b⟩ := hd
    by_cases h : a = k
    · simp [dictGet_cons, h, List.find?_cons_of_pos]
    · simp [dictGet_cons, h, List.find?_cons_of_neg, ih]

end DictLemmas

/-! ## Single-endpoint enqueue/drain traces -/

/-- One step of an interleaved enqueue/drain history against a fixed
endpoint: an enqueue is a `POST /command` whose body names the endpoint
and carries the action, the params, the call time and the generated
uuid; a drain is a `GET /command/<device_id>` at some time. -/
inductive QOp where
  | enq (act : Json) (params : Json) (now : Nat) (id : String)
  | drain (now : Nat)
deriving DecidableEq

/-- The request body `{"device_id": d, "action": act, "params": params}`. -/
def enqBody (d : String) (act params : Json) : JsonObj :=
  .cons "device_id" (.str d) (.cons "action" act (.cons "params" params .nil))

/-- Run an enqueue/drain history for endpoint `d` through the handlers,
collecting each drain's output in order. -/
def runTrace (d : String) (st : RelayState) : List QOp → List (List Command) × RelayState
  | [] => ([], st)
  | .enq act params now id :: ops =>
    runTrace d (post_command st (some (enqBody d act params)) now id).2 ops
  | .drain now :: ops =>
    let r := get_commands st d now
    let rest := runTrace d r.2 ops
    (r.1 :: rest.1, rest.2)

/-- The command records a history enqueues, in order (exactly the
records `post_command` builds). -/
def enqueuedCmds : List QOp → List Command
  | [] => []
  | .enq act params now id :: ops =>
    { id := id, action := act, params := params, timestamp := now } :: enqueuedCmds ops
  | .drain _ :: ops => enqueuedCmds ops

/-- The pending queue of endpoint `d` (an absent queue reads as empty). -/
def queueOf (d : String) (st : RelayState) : List Command :=
  (dictGet st.command_queue (.str d)).getD []

theorem post_command_enqBody (st : RelayState) (d : String) (act params : Json)
    (now : Nat) (id : String) :
    post_command st (some (enqBody d act params)) now id
      = (.success id,
         { st with command_queue := dictSet st.command_queue (.str d) ((dictGet st.command_queue (.str d)).getD [] ++ [{ id := id, action := act, params := params, timestamp := now }]) }) := by
  rfl

theorem queueOf_enq (st : RelayState) (d : String) (act params : Json)
    (now : Nat) (id : String) :
    queueOf d (post_command st (some (enqBody d act params)) now id).2
      = queueOf d st ++ [{ id := id, action := act, params := params, timestamp := now }] := by
  rw [post_command_enqBody]
  unfold queueOf
  rw [dictGet_set_self]
  cases dictGet st.command_queue (.str d) <;> simp

theorem get_commands_out (st : RelayState) (d : String) (now : Nat) :
    (get_commands st d now).1 = queueOf d st := by
  unfold get_commands queueOf
  cases hq : dictGet st.command_queue (.str d) with
  | none => simp [hq]
  | some cmds =>
    by_cases hc : cmds = []
    · simp [hq, hc]
    · simp [hq, hc]

theorem queueOf_drain (st : RelayState) (d : String) (now : Nat) :
    queueOf d (get_commands st d now).2 = [] := by
  unfold get_commands queueOf
  cases hq : dictGet st.command_queue (.str d) with
  | none => simp [hq]
  | some cmds =>
    by_cases hc : cmds = []
    · simp [hq, hc]
    · simp [hq, hc, dictGet_set_self]

/-- The drained outputs followed by the still-pending queue are exactly
the initial queue followed by all enqueued commands, in order. -/
theorem runTrace_flatten_queue (d : String) :
    ∀ (ops : List QOp) (st : RelayState),
      ((runTrace d st ops).1).flatten ++ queueOf d (runTrace d st ops).2
        = queueOf d st ++ enqueuedCmds ops := by
  intro ops
  induction ops with
  | nil => intro st; simp [runTrace, enqueuedCmds]
  | cons op ops ih =>
    intro st
    cases op with
    | enq act params now id =>
      simp only [runTrace, enqueuedCmds]
      rw [ih, queueOf_enq]
      simp
    | drain now =>
      simp only [runTrace, enqueuedCmds, List.flatten_cons]
      rw [get_commands_out, List.append_assoc, ih, queueOf_drain]
      simp

theorem countP_mem_eq_one_of_count_flatten_eq_one {α : Type} [DecidableEq α]
    (L : List (List α)) (c : α) (h : L.flatten.count c = 1) :
    L.countP (fun out => decide (c ∈ out)) = 1 := by
  induction L with
  | nil => simp at h
  | cons hd tl ih =>
    rw [List.flatten_cons, List.count_append] at h
    rw [List.countP_cons]
    by_cases hc : c ∈ hd
    · have h1 : hd.count c ≠ 0 := fun h0 => (List.count_eq_zero.1 h0) hc
      have h2 : tl.flatten.count c = 0 := by omega
      have h3 : c ∉ tl.flatten := List.count_eq_zero.1 h2
      have h4 : tl.countP (fun out => decide (c ∈ out)) = 0 := by
        rw [List.countP_eq_zero]
        intro out hout
        simp only [decide_eq_true_eq]
        exact fun hcout => h3 (List.mem_flatten.2 ⟨out, hout, hcout⟩)
      simp [h4, hc]
    · have h0 : hd.count c = 0 := List.count_eq_zero.2 hc
      rw [ih (by omega)]
      simp [hc]

/-! ## Full-API traces -/

/-- One API call together with its wall-clock time: the four client
operations plus one iteration of the cleanup sweep.  (`get_result`
reads no clock; the time on `resultGet` is trace metadata only.) -/
inductive ApiOp where
  | cmdPost (body : Option JsonObj) (now : Nat) (newId : String)
  | cmdPoll (device_id : String) (now : Nat)
  | resultPost (command_id : String) (file : Option FileUpload) (body : Option Json) (now : Nat)
  | resultGet (command_id : String) (now : Nat)
  | sweep (now : Nat)
deriving DecidableEq

/-- The wall-clock time at which an operation runs. -/
def ApiOp.time : ApiOp → Nat
  | .cmdPost _ n _ => n
  | .cmdPoll _ n => n
  | .resultPost _ _ _ n => n
  | .resultGet _ n => n
  | .sweep n => n

/-- The state transition of one API call. -/
def apiStep (st : RelayState) : ApiOp → RelayState
  | .cmdPost body now newId => (post_command st body now newId).2
  | .cmdPoll d now => (get_commands st d now).2
  | .resultPost c f b now => (post_result st c f b now).2
  | .resultGet c _ => (get_result st c).2
  | .sweep now => cleanup_old_data_sweep st now

/-- Run a sequence of API calls. -/
def runApi (st : RelayState) (ops : List ApiOp) : RelayState :=
  ops.foldl apiStep st

/-! ## Frame lemmas for the handlers -/

theorem post_command_frame (st : RelayState) (body : Option JsonObj)
    (now : Nat) (newId : String) :
    (post_command st body now newId).2.results_store = st.results_store
    ∧ (post_command st body now newId).2.device_last_seen = st.device_last_seen
    ∧ (post_command st body now newId).2.disk = st.disk := by
  unfold post_command
  cases body with
  | none => exact ⟨rfl, rfl, rfl⟩
  | some d =>
    by_cases hd : d.isEmpty
    · simp [hd]
    · cases h1 : d.lookup "device_id" <;> cases h2 : d.lookup "action" <;> simp [hd, h1, h2]

theorem get_commands_frame (st : RelayState) (d : String) (now : Nat) :
    (get_commands st d now).2.results_store = st.results_store
    ∧ (get_commands st d now).2.disk = st.disk
    ∧ (get_commands st d now).2.device_last_seen = dictSet st.device_last_seen d now := by
  unfold get_commands
  cases hq : dictGet st.command_queue (.str d) with
  | none => simp [hq]
  | some cmds =>
    by_cases hc : cmds = [] <;> simp [hq, hc]

theorem post_result_jsonBranch_frame (st : RelayState) (c : String)
    (data : Option Json) (now : Nat) :
    (post_result_jsonBranch st c data now).2.command_queue = st.command_queue
    ∧ (post_result_jsonBranch st c data now).2.device_last_seen = st.device_last_seen
    ∧ (post_result_jsonBranch st c data now).2.disk = st.disk := by
  unfold post_result_jsonBranch
  cases data with
  | none => exact ⟨rfl, rfl, rfl⟩
  | some d =>
    by_cases ht : d.truthy <;> simp [ht]

theorem post_result_frame (st : RelayState) (c : String)
    (file : Option FileUpload) (data : Option Json) (now : Nat) :
    (post_result st c file data now).2.command_queue = st.command_queue
    ∧ (post_result st c file data now).2.device_last_seen = st.device_last_seen := by
  unfold post_result
  cases file with
  | none =>
    exact ⟨(post_result_jsonBranch_frame st c data now).1,
           (post_result_jsonBranch_frame st c data now).2.1⟩
  | some f =>
    by_cases hf : f.filename ≠ ""
    · simp [hf]
    · simp only [hf, if_false]
      exact ⟨(post_result_jsonBranch_frame st c data now).1,
             (post_result_jsonBranch_frame st c data now).2.1⟩

theorem get_result_state (st : RelayState) (c : String) :
    (get_result st c).2 = st := by
  unfold get_result
  cases h : dictGet st.results_store c with
  | none => rfl
  | some e => cases e <;> rfl

theorem cleanup_frame (st : RelayState) (now : Nat) :
    (cleanup_old_data_sweep st now).command_queue = st.command_queue
    ∧ (cleanup_old_data_sweep st now).device_last_seen = st.device_last_seen := by
  exact ⟨rfl, rfl⟩

/-! ## Claim theorems -/

/-- C1: for every history of enqueues to one endpoint interleaved with
drains, run from process start with distinct generated ids: each drain
output lists commands in enqueue (FIFO) order (it is a sublist of the
enqueue sequence); no command is returned by more than one drain; and
whenever the queue has been emptied (for instance when the history ends
in a drain), every enqueued command has appeared in exactly one drain's
output, exactly once. -/
theorem fifo_exactly_once_handoff (d : String) (ops : List QOp)
    (hids : ((enqueuedCmds ops).map Command.id).Nodup) :
    (∀ out ∈ (runTrace d initialState ops).1, out.Sublist (enqueuedCmds ops))
    ∧ (∀ c ∈ enqueuedCmds ops,
        ((runTrace d initialState ops).1).flatten.count c ≤ 1)
    ∧ (queueOf d (runTrace d initialState ops).2 = [] →
        ∀ c ∈ enqueuedCmds ops,
          ((runTrace d initialState ops).1).flatten.count c = 1
          ∧ (runTrace d initialState ops).1.countP (fun out => decide (c ∈ out)) = 1) := by
  have hnodup : (enqueuedCmds ops).Nodup := hids.of_map
  have key := runTrace_flatten_queue d ops initialState
  have hinit : queueOf d initialState = [] := rfl
  rw [hinit, List.nil_append] at key
  refine ⟨?_, ?_, ?_⟩
  · intro out hout
    have h1 : out.Sublist ((runTrace d initialState ops).1).flatten :=
      List.sublist_flatten_of_mem hout
    have h2 : (((runTrace d initialState ops).1).flatten).Sublist (enqueuedCmds ops) := by
      rw [← key]
      exact List.sublist_append_left _ _
    exact h1.trans h2
  · intro c hc
    have h1 : (enqueuedCmds ops).count c = 1 := List.count_eq_one_of_mem hnodup hc
    have h2 := congrArg (fun l => l.count c) key
    simp only [List.count_append] at h2
    omega
  · intro hq c hc
    have h1 : (enqueuedCmds ops).count c = 1 := List.count_eq_one_of_mem hnodup hc
    have h2 := congrArg (fun l => l.count c) key
    rw [hq] at h2
    simp only [List.count_append, List.count_nil] at h2
    exact ⟨by omega, countP_mem_eq_one_of_count_flatten_eq_one _ _ (by omega)⟩

/-- Concrete history for the C1 witness: two enqueues, a drain, a third
enqueue, a final drain. -/
def c1TraceOps : List QOp :=
  [.enq (.str "ping") (.obj .nil) 1 "c1", .enq (.str "ls") (.obj .nil) 2 "c2",
   .drain 3, .enq (.str "rm") (.obj .nil) 4 "c3", .drain 5]

/-- Witness for C1: in the concrete history, command `c1` appears in
exactly one drain output, exactly once. -/
theorem fifo_exactly_once_handoff_witness :
    ((runTrace "dev1" initialState c1TraceOps).1).flatten.count
        { id := "c1", action := .str "ping", params := .obj .nil, timestamp := 1 } = 1
    ∧ (runTrace "dev1" initialState c1TraceOps).1.countP
        (fun out => decide (({ id := "c1", action := .str "ping", params := .obj .nil, timestamp := 1 } : Command) ∈ out)) = 1 :=
  (fifo_exactly_once_handoff "dev1" c1TraceOps (by decide)).2.2 (by decide)
    { id := "c1", action := .str "ping", params := .obj .nil, timestamp := 1 } (by decide)

theorem get_result_file_entry (st : RelayState) (c fp fn : String) (t : Nat)
    (h : dictGet st.results_store c = some (.file fp fn t)) :
    (get_result st c).1 = .fileResp (dictGet st.disk fp) fn := by
  unfold get_result
  rw [h]

theorem get_result_data_entry (st : RelayState) (c : String) (dd : Json) (t : Nat)
    (h : dictGet st.results_store c = some (.data dd t)) :
    (get_result st c).1 = .dataResp dd := by
  unfold get_result
  rw [h]

theorem post_result_file_eq (st : RelayState) (c : String) (f : FileUpload)
    (data : Option Json) (now : Nat) (hf : f.filename ≠ "") :
    post_result st c (some f) data now
      = (.success "File uploaded",
         { st with
             disk := dictSet st.disk ("uploads/" ++ c ++ "_" ++ f.filename) f.content,
             results_store := dictSet st.results_store c (.file ("uploads/" ++ c ++ "_" ++ f.filename) f.filename now) }) := by
  simp only [post_result]
  rw [if_pos hf]

theorem post_result_data_eq (st : RelayState) (c : String) (dd : Json)
    (now : Nat) (ht : dd.truthy = true) :
    post_result st c none (some dd) now
      = (.success "Result stored",
         { st with results_store := dictSet st.results_store c (.data dd now) }) := by
  simp only [post_result, post_result_jsonBranch]
  rw [if_pos ht]

/-- C2 (corrected): a second submission for a command id that already
holds a blob overwrites the map entry (last-write-wins), so a
subsequent fetch returns only the second result; but the prior blob's
saved file is NOT released at overwrite time - every disk path other
than the one the new upload writes is untouched, so the old file stays
on disk whenever the new path differs. -/
theorem result_overwrite_last_write_wins (st : RelayState) (c : String)
    (p fn : String) (t : Nat)
    (_hprev : dictGet st.results_store c = some (.file p fn t)) :
    (∀ (f : FileUpload) (now : Nat), f.filename ≠ "" →
      dictGet (post_result st c (some f) none now).2.results_store c
          = some (.file ("uploads/" ++ c ++ "_" ++ f.filename) f.filename now)
      ∧ (get_result (post_result st c (some f) none now).2 c).1
          = .fileResp (dictGet (post_result st c (some f) none now).2.disk ("uploads/" ++ c ++ "_" ++ f.filename)) f.filename
      ∧ dictGet (post_result st c (some f) none now).2.disk ("uploads/" ++ c ++ "_" ++ f.filename) = some f.content
      ∧ (p ≠ "uploads/" ++ c ++ "_" ++ f.filename →
          dictGet (post_result st c (some f) none now).2.disk p = dictGet st.disk p))
    ∧ (∀ (dd : Json) (now : Nat), dd.truthy = true →
      dictGet (post_result st c none (some dd) now).2.results_store c = some (.data dd now)
      ∧ (get_result (post_result st c none (some dd) now).2 c).1 = .dataResp dd
      ∧ (post_result st c none (some dd) now).2.disk = st.disk) := by
  constructor
  · intro f now hf
    rw [post_result_file_eq st c f none now hf]
    refine ⟨dictGet_set_self _ _ _, ?_, ?_, ?_⟩
    · exact get_result_file_entry _ c _ f.filename now (dictGet_set_self _ _ _)
    · exact dictGet_set_self _ _ _
    · intro hp
      exact dictGet_set_ne _ _ _ _ hp
  · intro dd now ht
    rw [post_result_data_eq st c dd now ht]
    exact ⟨dictGet_set_self _ _ _,
           get_result_data_entry _ c dd now (dictGet_set_self _ _ _), rfl⟩

/-- The C2 witness's prior state: a first blob result `a.txt` stored for
command `c1` at time 10. -/
def c2PriorState : RelayState :=
  (post_result initialState "c1" (some ⟨"a.txt", [1]⟩) none 10).2

/-- Witness for C2: overwriting the stored `a.txt` blob of `c1` with a
`b.txt` blob makes fetch see the second blob, while the first blob's
file is untouched on disk. -/
theorem result_overwrite_last_write_wins_witness :
    dictGet (post_result c2PriorState "c1" (some ⟨"b.txt", [2]⟩) none 20).2.results_store "c1"
      = some (.file ("uploads/" ++ "c1" ++ "_" ++ "b.txt") "b.txt" 20)
    ∧ dictGet (post_result c2PriorState "c1" (some ⟨"b.txt", [2]⟩) none 20).2.disk "uploads/c1_a.txt"
      = dictGet c2PriorState.disk "uploads/c1_a.txt" := by
  have h := result_overwrite_last_write_wins c2PriorState "c1" "uploads/c1_a.txt" "a.txt" 10 (by decide)
  have h2 := h.1 ⟨"b.txt", [2]⟩ 20 (by decide)
  exact ⟨h2.1, h2.2.2.2 (by decide)⟩

/-- C2 counterexample: after overwriting the `a.txt` blob of `c1` with a
`b.txt` blob, the first blob's saved file `uploads/c1_a.txt` is still on
disk with its content - the prior blob storage was not released at
overwrite time - even though the store now points at the second blob. -/
theorem result_overwrite_release_counterexample :
    dictGet (post_result (post_result initialState "c1" (some ⟨"a.txt", [1]⟩) none 10).2 "c1" (some ⟨"b.txt", [2]⟩) none 20).2.disk "uploads/c1_a.txt" = some [1]
    ∧ dictGet (post_result (post_result initialState "c1" (some ⟨"a.txt", [1]⟩) none 10).2 "c1" (some ⟨"b.txt", [2]⟩) none 20).2.results_store "c1"
      = some (.file "uploads/c1_b.txt" "b.txt" 20) :=
  ⟨by decide, by decide⟩

/-- C3 (corrected): `post_result` answers the 400 InvalidRequest error
iff the request carries neither a blob with a nonempty filename nor a
truthy JSON body; the blob's content is not inspected, so a zero-byte
named blob is accepted.  When either form is present the handler stores
a result record timestamped with the call time and acknowledges; on
error the state is unchanged. -/
theorem submit_result_invalid_iff (st : RelayState) (c : String)
    (file : Option FileUpload) (data : Option Json) (now : Nat) :
    ((post_result st c file data now).1.isError = true
      ↔ ¬ ((∃ f, file = some f ∧ f.filename ≠ "")
           ∨ (∃ dd, data = some dd ∧ dd.truthy = true)))
    ∧ ((post_result st c file data now).1.isError = true →
        (post_result st c file data now).2 = st)
    ∧ ((post_result st c file data now).1.isError = false →
        ∃ e, dictGet (post_result st c file data now).2.results_store c = some e
          ∧ e.timestamp = now) := by
  by_cases hfile : ∃ f, file = some f ∧ f.filename ≠ ""
  · obtain ⟨f, rfl, hf⟩ := hfile
    rw [post_result_file_eq st c f data now hf]
    refine ⟨?_, ?_, ?_⟩
    · constructor
      · intro h
        exact absurd h (by simp [PostResultResp.isError])
      · intro hneg
        exact absurd (Or.inl ⟨f, rfl, hf⟩) hneg
    · intro h
      exact absurd h (by simp [PostResultResp.isError])
    · intro _
      exact ⟨_, dictGet_set_self _ _ _, rfl⟩
  · have hred : post_result st c file data now = post_result_jsonBranch st c data now := by
      cases file with
      | none => rfl
      | some f =>
        have hf : ¬ f.filename ≠ "" := fun hne => hfile ⟨f, rfl, hne⟩
        simp only [post_result]
        rw [if_neg hf]
    rw [hred]
    cases data with
    | none =>
      refine ⟨?_, fun _ => rfl, fun h => absurd h (by simp [post_result_jsonBranch, PostResultResp.isError])⟩
      constructor
      · intro _
        rintro (hA | ⟨dd, hdd, _⟩)
        · exact hfile hA
        · cases hdd
      · intro _
        rfl
    | some dd =>
      by_cases ht : dd.truthy = true
      · have heq : post_result_jsonBranch st c (some dd) now
            = (.success "Result stored", { st with results_store := dictSet st.results_store c (.data dd now) }) := by
          simp only [post_result_jsonBranch]
          rw [if_pos ht]
        rw [heq]
        refine ⟨?_, ?_, ?_⟩
        · constructor
          · intro h
            exact absurd h (by simp [PostResultResp.isError])
          · intro hneg
            exact absurd (Or.inr ⟨dd, rfl, ht⟩) hneg
        · intro h
          exact absurd h (by simp [PostResultResp.isError])
        · intro _
          exact ⟨_, dictGet_set_self _ _ _, rfl⟩
      · have heq : post_result_jsonBranch st c (some dd) now
            = (.error400 "No data or file provided", st) := by
          simp only [post_result_jsonBranch]
          rw [if_neg ht]
        rw [heq]
        refine ⟨?_, fun _ => rfl, fun h => absurd h (by simp [PostResultResp.isError])⟩
        constructor
        · intro _
          rintro (hA | ⟨dd2, hdd2, ht2⟩)
          · exact hfile hA
          · injection hdd2 with h2
            subst h2
            exact ht ht2
        · intro _
          rfl

/-- Witness for C3: submitting with neither a file nor a body is a 400
error and leaves the state unchanged; submitting a truthy JSON body
stores a record carrying the call time. -/
theorem submit_result_invalid_iff_witness :
    (post_result initialState "c1" none none 0).2 = initialState
    ∧ ∃ e, dictGet (post_result initialState "c1" none (some (.bool true)) 5).2.results_store "c1" = some e
        ∧ e.timestamp = 5 :=
  ⟨(submit_result_invalid_iff initialState "c1" none none 0).2.1 (by decide),
   (submit_result_invalid_iff initialState "c1" none (some (.bool true)) 5).2.2 (by decide)⟩

/-- C3 counterexample: a named blob with empty (zero-byte) content and
no structured body is accepted and stored - the handler checks only the
filename - where the claim, requiring nonzero content, demands
InvalidRequest. -/
theorem submit_result_zero_content_counterexample :
    (post_result initialState "c1" (some ⟨"a.txt", []⟩) none 5).1 = .success "File uploaded"
    ∧ (post_result initialState "c1" (some ⟨"a.txt", []⟩) none 5).1.isError = false
    ∧ dictGet (post_result initialState "c1" (some ⟨"a.txt", []⟩) none 5).2.results_store "c1"
        = some (.file "uploads/c1_a.txt" "a.txt" 5) :=
  ⟨by decide, by decide, by decide⟩

/-- C4 (corrected): `post_command` fails with the 400 InvalidRequest
error iff the body is absent, the empty object, or lacks the
`device_id` or `action` key; the values themselves are not validated,
so empty-string values are accepted.  When both keys are present the
handler succeeds, answers the freshly generated id, and appends the new
command record to the device's queue, creating the queue if absent. -/
theorem enqueue_invalid_iff (st : RelayState) (data : Option JsonObj)
    (now : Nat) (newId : String) :
    ((post_command st data now newId).1.isError = true
      ↔ (data = none ∨ data = some .nil
         ∨ ∃ d, data = some d ∧ (d.lookup "device_id" = none ∨ d.lookup "action" = none)))
    ∧ (∀ d dev act, data = some d → d.lookup "device_id" = some dev →
        d.lookup "action" = some act →
        (post_command st data now newId).1 = .success newId
        ∧ dictGet (post_command st data now newId).2.command_queue dev
            = some ((dictGet st.command_queue dev).getD [] ++ [{ id := newId, action := act, params := (d.lookup "params").getD (.obj .nil), timestamp := now }])) := by
  cases data with
  | none =>
    refine ⟨⟨fun _ => Or.inl rfl, fun _ => rfl⟩, ?_⟩
    intro d dev act hd _ _
    cases hd
  | some d =>
    cases d with
    | nil =>
      refine ⟨⟨fun _ => Or.inr (Or.inl rfl), fun _ => rfl⟩, ?_⟩
      intro d2 dev act hd2 hdev _
      injection hd2 with h2
      subst h2
      cases hdev
    | cons k v tl =>
      cases hdev : JsonObj.lookup (.cons k v tl) "device_id" with
      | none =>
        have heq : post_command st (some (.cons k v tl)) now newId
            = (.error400 "Missing device_id or action", st) := by
          simp only [post_command, JsonObj.isEmpty, Bool.false_eq_true, if_false]
          rw [hdev]
        rw [heq]
        refine ⟨⟨fun _ => Or.inr (Or.inr ⟨_, rfl, Or.inl hdev⟩), fun _ => rfl⟩, ?_⟩
        intro d2 dev act hd2 hdev2 _
        injection hd2 with h2
        subst h2
        rw [hdev] at hdev2
        cases hdev2
      | some dev =>
        cases hact : JsonObj.lookup (.cons k v tl) "action" with
        | none =>
          have heq : post_command st (some (.cons k v tl)) now newId
              = (.error400 "Missing device_id or action", st) := by
            simp only [post_command, JsonObj.isEmpty, Bool.false_eq_true, if_false]
            rw [hdev, hact]
          rw [heq]
          refine ⟨⟨fun _ => Or.inr (Or.inr ⟨_, rfl, Or.inr hact⟩), fun _ => rfl⟩, ?_⟩
          intro d2 dev2 act2 hd2 _ hact2
          injection hd2 with h2
          subst h2
          rw [hact] at hact2
          cases hact2
        | some act =>
          have heq : post_command st (some (.cons k v tl)) now newId
              = (.success newId, { st with command_queue := dictSet st.command_queue dev ((dictGet st.command_queue dev).getD [] ++ [{ id := newId, action := act, params := ((JsonObj.cons k v tl).lookup "params").getD (.obj .nil), timestamp := now }]) }) := by
            simp only [post_command, JsonObj.isEmpty, Bool.false_eq_true, if_false]
            rw [hdev, hact]
          rw [heq]
          refine ⟨?_, ?_⟩
          · constructor
            · intro h
              exact absurd h (by simp [PostCommandResp.isError])
            · rintro (h1 | h1 | ⟨d3, hd3, h3 | h3⟩)
              · cases h1
              · injection h1 with h1
                cases h1
              · injection hd3 with h4
                subst h4
                rw [hdev] at h3
                cases h3
              · injection hd3 with h4
                subst h4
                rw [hact] at h3
                cases h3
          · intro d2 dev2 act2 hd2 hdev2 hact2
            injection hd2 with h2
            subst h2
            rw [hdev] at hdev2
            injection hdev2 with h5
            subst h5
            rw [hact] at hact2
            injection hact2 with h6
            subst h6
            exact ⟨rfl, dictGet_set_self _ _ _⟩

/-- Witness for C4: a well-formed body enqueues the command for its
device and answers the generated id. -/
theorem enqueue_invalid_iff_witness :
    (post_command initialState (some (.cons "device_id" (.str "dev1") (.cons "action" (.str "ping") .nil))) 3 "c9").1 = .success "c9"
    ∧ dictGet (post_command initialState (some (.cons "device_id" (.str "dev1") (.cons "action" (.str "ping") .nil))) 3 "c9").2.command_queue (.str "dev1")
      = some ((dictGet initialState.command_queue (.str "dev1")).getD [] ++ [{ id := "c9", action := .str "ping", params := ((JsonObj.cons "device_id" (.str "dev1") (.cons "action" (.str "ping") .nil)).lookup "params").getD (.obj .nil), timestamp := 3 }]) :=
  (enqueue_invalid_iff initialState (some (.cons "device_id" (.str "dev1") (.cons "action" (.str "ping") .nil))) 3 "c9").2
    (.cons "device_id" (.str "dev1") (.cons "action" (.str "ping") .nil)) (.str "dev1") (.str "ping") rfl (by decide) (by decide)

/-- C4 counterexample: the body `{"device_id": "", "action": "reboot"}`
carries an empty endpoint id, where the claim demands InvalidRequest,
yet the handler succeeds (only key presence is checked). -/
theorem enqueue_empty_device_id_counterexample :
    (post_command initialState (some (.cons "device_id" (.str "") (.cons "action" (.str "reboot") .nil))) 0 "id0").1 = .success "id0"
    ∧ (post_command initialState (some (.cons "device_id" (.str "") (.cons "action" (.str "reboot") .nil))) 0 "id0").1.isError = false :=
  ⟨by decide, by decide⟩

/-- C5: one sweep iteration removes exactly the result entries whose
age strictly exceeds the TTL - an entry is evicted iff
`now - timestamp > RESULT_EXPIRY`, so a live (non-expired) entry always
survives. -/
theorem sweep_evicts_exactly_expired (st : RelayState) (now : Nat) (k : String)
    (hnodup : (st.results_store.map Prod.fst).Nodup) :
    dictGet (cleanup_old_data_sweep st now).results_store k
      = (match dictGet st.results_store k with
         | some e => if now - e.timestamp > RESULT_EXPIRY then none else some e
         | none => none) := by
  show dictGet (st.results_store.filter (fun p => decide (¬ now - p.2.timestamp > RESULT_EXPIRY))) k = _
  rw [dictGet_filter _ _ _ hnodup]
  cases dictGet st.results_store k with
  | none => rfl
  | some e =>
    by_cases h : now - e.timestamp > RESULT_EXPIRY
    · simp [h]
    · simp [h]

/-- State for the C5 witness: at `now = 10000`, entry `old` is 3660 s
(61 min) old and entry `fresh` is 3540 s (59 min) old. -/
def c5State : RelayState :=
  { initialState with results_store :=
      [("old", .data (.bool true) 6340), ("fresh", .data (.bool true) 6460)] }

/-- Witness for C5: the 61-minute-old entry is evicted, the
59-minute-old entry survives. -/
theorem sweep_evicts_exactly_expired_witness :
    dictGet (cleanup_old_data_sweep c5State 10000).results_store "old" = none
    ∧ dictGet (cleanup_old_data_sweep c5State 10000).results_store "fresh"
        = some (.data (.bool true) 6460) :=
  ⟨(sweep_evicts_exactly_expired c5State 10000 "old" (by decide)).trans (by decide),
   (sweep_evicts_exactly_expired c5State 10000 "fresh" (by decide)).trans (by decide)⟩

theorem countP_congr_eq {α : Type} (p q : α → Bool) :
    ∀ l : List α, (∀ a ∈ l, p a = q a) → l.countP p = l.countP q := by
  intro l
  induction l with
  | nil => intro _; rfl
  | cons hd tl ih =>
    intro h
    rw [List.countP_cons, List.countP_cons, h hd (List.mem_cons_self hd tl),
      ih (fun a ha => h a (List.mem_cons_of_mem hd ha))]

theorem countOnline_aux (l : List (String × Nat)) (now : Nat) :
    ((l.filter (fun p => decide (now - p.2 < DEVICE_TIMEOUT))).map (fun p => p.1)).length
      = (l.map (fun p => (p.1, ({ last_seen := p.2, seconds_ago := now - p.2, status := if now - p.2 < DEVICE_TIMEOUT then "online" else "offline" } : DeviceInfo)))).countP (fun p => decide (p.2.status = "online")) := by
  rw [List.length_map, List.countP_map, ← List.countP_eq_length_filter]
  apply countP_congr_eq
  intro a _
  by_cases hlt : now - a.2 < DEVICE_TIMEOUT
  · simp [hlt, Function.comp]
  · simp [hlt, Function.comp]

/-- C6: an endpoint is classified online iff `now - lastSeen <
DEVICE_TIMEOUT` (strict inequality), both in the per-endpoint
`/devices` snapshot and in the `/` online count, which equals the
number of snapshot rows whose status is `"online"`. -/
theorem device_online_classification (st : RelayState) (now : Nat) :
    (∀ d info, dictGet (list_devices st now) d = some info →
        dictGet st.device_last_seen d = some info.last_seen
        ∧ (info.status = "online" ↔ now - info.last_seen < DEVICE_TIMEOUT)
        ∧ (info.status = "online" ∨ info.status = "offline"))
    ∧ home st now = (list_devices st now).countP (fun p => decide (p.2.status = "online")) := by
  constructor
  · intro d info hinfo
    unfold list_devices at hinfo
    rw [dictGet_map_keyPreserving] at hinfo
    cases hfind : st.device_last_seen.find? (fun p => decide (p.1 = d)) with
    | none =>
      rw [hfind] at hinfo
      cases hinfo
    | some q =>
      rw [hfind] at hinfo
      have hinfo2 : some ({ last_seen := q.2, seconds_ago := now - q.2, status := if now - q.2 < DEVICE_TIMEOUT then "online" else "offline" } : DeviceInfo) = some info := hinfo
      injection hinfo2 with h1
      subst h1
      refine ⟨?_, ?_, ?_⟩
      · show dictGet st.device_last_seen d = some q.2
        unfold dictGet
        rw [hfind]
        rfl
      · show ((if now - q.2 < DEVICE_TIMEOUT then "online" else "offline") = "online")
            ↔ now - q.2 < DEVICE_TIMEOUT
        by_cases hlt : now - q.2 < DEVICE_TIMEOUT
        · rw [if_pos hlt]
          exact ⟨fun _ => hlt, fun _ => rfl⟩
        · rw [if_neg hlt]
          exact ⟨fun hs => absurd hs (by decide), fun hl => absurd hl hlt⟩
      · show ((if now - q.2 < DEVICE_TIMEOUT then "online" else "offline") = "online")
            ∨ ((if now - q.2 < DEVICE_TIMEOUT then "online" else "offline") = "offline")
        by_cases hlt : now - q.2 < DEVICE_TIMEOUT
        · exact Or.inl (by rw [if_pos hlt])
        · exact Or.inr (by rw [if_neg hlt])
  · exact countOnline_aux st.device_last_seen now

/-- State for the C6 witness: at `now = 1000`, endpoint `a` was last
seen 660 s (11 min) ago and endpoint `b` 540 s (9 min) ago. -/
def c6State : RelayState :=
  { initialState with device_last_seen := [("a", 340), ("b", 460)] }

/-- Witness for C6: under the 10-minute timeout, `b` (9 min ago) is
online and `a` (11 min ago) is offline, and the online count is the
number of online snapshot rows. -/
theorem device_online_classification_witness :
    (("online" = "online") ↔ (1000 : Nat) - 460 < DEVICE_TIMEOUT)
    ∧ (("offline" = "online") ↔ (1000 : Nat) - 340 < DEVICE_TIMEOUT)
    ∧ home c6State 1000 = (list_devices c6State 1000).countP (fun p => decide (p.2.status = "online")) :=
  ⟨((device_online_classification c6State 1000).1 "b" { last_seen := 460, seconds_ago := 540, status := "online" } (by decide)).2.1,
   ((device_online_classification c6State 1000).1 "a" { last_seen := 340, seconds_ago := 660, status := "offline" } (by decide)).2.1,
   (device_online_classification c6State 1000).2⟩

/-- C7: fetch does not delete or otherwise mutate any store (so a
repeated fetch returns the same value), answers NotFound iff no live
entry exists for the id - covering never-submitted and evicted ids
alike - and otherwise returns the stored entry. -/
theorem fetch_readonly_notfound_iff (st : RelayState) (c : String) :
    (get_result st c).2 = st
    ∧ ((get_result st c).1 = .error404 "Result not found or expired"
        ↔ dictGet st.results_store c = none)
    ∧ get_result (get_result st c).2 c = get_result st c
    ∧ (∀ dd t, dictGet st.results_store c = some (.data dd t) →
        (get_result st c).1 = .dataResp dd)
    ∧ (∀ fp fn t, dictGet st.results_store c = some (.file fp fn t) →
        (get_result st c).1 = .fileResp (dictGet st.disk fp) fn) := by
  have hstate := get_result_state st c
  refine ⟨hstate, ?_, by rw [hstate], ?_, ?_⟩
  · unfold get_result
    cases h : dictGet st.results_store c with
    | none => simp
    | some e => cases e <;> simp
  · intro dd t h
    exact get_result_data_entry st c dd t h
  · intro fp fn t h
    exact get_result_file_entry st c fp fn t h

/-- State for the C7 witness: a structured result `{"pong": true}`
submitted for `c1` at time 5. -/
def c7State : RelayState :=
  (post_result initialState "c1" none (some (.obj (.cons "pong" (.bool true) .nil))) 5).2

/-- Witness for C7: fetching `c1` returns the stored payload and leaves
the state unchanged. -/
theorem fetch_readonly_notfound_iff_witness :
    (get_result c7State "c1").1 = .dataResp (.obj (.cons "pong" (.bool true) .nil))
    ∧ (get_result c7State "c1").2 = c7State :=
  ⟨(fetch_readonly_notfound_iff c7State "c1").2.2.2.1 (.obj (.cons "pong" (.bool true) .nil)) 5 (by decide),
   (fetch_readonly_notfound_iff c7State "c1").1⟩

/-- C8: poll always succeeds - it returns the pending queue, which is
the empty sequence (not an error) when the queue is absent or empty -
and every poll, including an empty one, records the endpoint's
last-seen time. -/
theorem poll_total_and_touches (st : RelayState) (d : String) (now : Nat) :
    dictGet (get_commands st d now).2.device_last_seen d = some now
    ∧ (get_commands st d now).1 = queueOf d st
    ∧ ((dictGet st.command_queue (.str d) = none
        ∨ dictGet st.command_queue (.str d) = some []) →
        (get_commands st d now).1 = []) := by
  refine ⟨?_, get_commands_out st d now, ?_⟩
  · rw [(get_commands_frame st d now).2.2, dictGet_set_self]
  · intro h
    rw [get_commands_out]
    unfold queueOf
    rcases h with h | h <;> rw [h] <;> rfl

/-- Witness for C8: polling a never-seen endpoint answers the empty
sequence and records the touch. -/
theorem poll_total_and_touches_witness :
    dictGet (get_commands initialState "dev" 7).2.device_last_seen "dev" = some 7
    ∧ (get_commands initialState "dev" 7).1 = [] :=
  ⟨(poll_total_and_touches initialState "dev" 7).1,
   (poll_total_and_touches initialState "dev" 7).2.2 (Or.inl (by decide))⟩

theorem chain_le_cons_of_le {a b : Nat} {l : List Nat} (hab : a ≤ b)
    (h : List.Chain' (· ≤ ·) (b :: l)) : List.Chain' (· ≤ ·) (a :: l) := by
  cases l with
  | nil => simp
  | cons c l =>
    rw [List.chain'_cons] at h ⊢
    exact ⟨le_trans hab h.1, h.2⟩

/-- C9: along any chronological API trace (operation times
non-decreasing), each endpoint's last-seen timestamp is monotonically
non-decreasing: a poll sets it to the call's current time and no
operation ever rewinds it to an earlier value. -/
theorem last_seen_monotone (ops : List ApiOp) :
    ∀ (st : RelayState) (d : String) (t0 : Nat),
      dictGet st.device_last_seen d = some t0 →
      List.Chain' (· ≤ ·) (t0 :: ops.map ApiOp.time) →
      ∃ t1, dictGet (runApi st ops).device_last_seen d = some t1 ∧ t0 ≤ t1 := by
  induction ops with
  | nil =>
    intro st d t0 h0 _
    exact ⟨t0, h0, le_refl t0⟩
  | cons op ops ih =>
    intro st d t0 h0 hchain
    rw [List.map_cons, List.chain'_cons] at hchain
    show ∃ t1, dictGet (runApi (apiStep st op) ops).device_last_seen d = some t1 ∧ t0 ≤ t1
    cases op with
    | cmdPoll d2 now =>
      by_cases hd : d2 = d
      · subst hd
        have hnew : dictGet (apiStep st (.cmdPoll d2 now)).device_last_seen d2 = some now := by
          show dictGet (get_commands st d2 now).2.device_last_seen d2 = some now
          rw [(get_commands_frame st d2 now).2.2, dictGet_set_self]
        obtain ⟨t1, ht1, hle⟩ := ih _ d2 now hnew hchain.2
        exact ⟨t1, ht1, le_trans hchain.1 hle⟩
      · have hsame : dictGet (apiStep st (.cmdPoll d2 now)).device_last_seen d = some t0 := by
          show dictGet (get_commands st d2 now).2.device_last_seen d = some t0
          rw [(get_commands_frame st d2 now).2.2,
            dictGet_set_ne _ _ _ _ (fun hh => hd hh.symm)]
          exact h0
        obtain ⟨t1, ht1, hle⟩ := ih _ d t0 hsame (chain_le_cons_of_le hchain.1 hchain.2)
        exact ⟨t1, ht1, hle⟩
    | cmdPost body now newId =>
      have hsame : dictGet (apiStep st (.cmdPost body now newId)).device_last_seen d = some t0 := by
        show dictGet (post_command st body now newId).2.device_last_seen d = some t0
        rw [(post_command_frame st body now newId).2.1]
        exact h0
      obtain ⟨t1, ht1, hle⟩ := ih _ d t0 hsame (chain_le_cons_of_le hchain.1 hchain.2)
      exact ⟨t1, ht1, hle⟩
    | resultPost c f b now =>
      have hsame : dictGet (apiStep st (.resultPost c f b now)).device_last_seen d = some t0 := by
        show dictGet (post_result st c f b now).2.device_last_seen d = some t0
        rw [(post_result_frame st c f b now).2]
        exact h0
      obtain ⟨t1, ht1, hle⟩ := ih _ d t0 hsame (chain_le_cons_of_le hchain.1 hchain.2)
      exact ⟨t1, ht1, hle⟩
    | resultGet c now =>
      have hsame : dictGet (apiStep st (.resultGet c now)).device_last_seen d = some t0 := by
        show dictGet (get_result st c).2.device_last_seen d = some t0
        rw [get_result_state]
        exact h0
      obtain ⟨t1, ht1, hle⟩ := ih _ d t0 hsame (chain_le_cons_of_le hchain.1 hchain.2)
      exact ⟨t1, ht1, hle⟩
    | sweep now =>
      have hsame : dictGet (apiStep st (.sweep now)).device_last_seen d = some t0 := h0
      obtain ⟨t1, ht1, hle⟩ := ih _ d t0 hsame (chain_le_cons_of_le hchain.1 hchain.2)
      exact ⟨t1, ht1, hle⟩

/-- Start state for the C9 witness: endpoint `dev` polled at time 5. -/
def c9StartState : RelayState := (get_commands initialState "dev" 5).2

/-- Chronological trace for the C9 witness. -/
def c9Ops : List ApiOp :=
  [.cmdPoll "dev" 7, .sweep 9, .cmdPoll "other" 11, .resultGet "c1" 11]

/-- Witness for C9 at a concrete chronological trace. -/
theorem last_seen_monotone_witness :
    ∃ t1, dictGet (runApi c9StartState c9Ops).device_last_seen "dev" = some t1 ∧ 5 ≤ t1 :=
  last_seen_monotone c9Ops c9StartState "dev" 5 (by decide)
    (by simp [c9Ops, ApiOp.time, List.chain'_cons])

theorem post_result_jsonBranch_results_frame (st : RelayState) (c : String)
    (data : Option Json) (now : Nat) (k : String) (hk : k ≠ c) :
    dictGet (post_result_jsonBranch st c data now).2.results_store k
      = dictGet st.results_store k := by
  cases data with
  | none => rfl
  | some dd =>
    simp only [post_result_jsonBranch]
    by_cases ht : dd.truthy = true
    · rw [if_pos ht]
      exact dictGet_set_ne _ _ _ _ hk
    · rw [if_neg ht]

/-- C10: every operation mutates only the entry it is keyed on.
Enqueue touches only the queue of the body's device id - the result
store, the liveness store and the disk are untouched, as is every other
device's queue.  Poll touches only the polled device's queue and its
liveness record.  Submitting a result touches only that command id's
result entry and writes only the one upload path derived from the id
and filename.  Fetch mutates nothing at all. -/
theorem frame_effects (st : RelayState) :
    (∀ body now newId k, (∀ d2, body = some d2 → d2.lookup "device_id" ≠ some k) →
        dictGet (post_command st body now newId).2.command_queue k = dictGet st.command_queue k)
    ∧ (∀ body now newId,
        (post_command st body now newId).2.results_store = st.results_store
        ∧ (post_command st body now newId).2.device_last_seen = st.device_last_seen
        ∧ (post_command st body now newId).2.disk = st.disk)
    ∧ (∀ d now k, k ≠ Json.str d →
        dictGet (get_commands st d now).2.command_queue k = dictGet st.command_queue k)
    ∧ (∀ d now e, e ≠ d →
        dictGet (get_commands st d now).2.device_last_seen e = dictGet st.device_last_seen e)
    ∧ (∀ d now,
        (get_commands st d now).2.results_store = st.results_store
        ∧ (get_commands st d now).2.disk = st.disk)
    ∧ (∀ c file data now k, k ≠ c →
        dictGet (post_result st c file data now).2.results_store k = dictGet st.results_store k)
    ∧ (∀ c file data now,
        (post_result st c file data now).2.command_queue = st.command_queue
        ∧ (post_result st c file data now).2.device_last_seen = st.device_last_seen)
    ∧ (∀ c file data now p2, (∀ f, file = some f → p2 ≠ "uploads/" ++ c ++ "_" ++ f.filename) →
        dictGet (post_result st c file data now).2.disk p2 = dictGet st.disk p2)
    ∧ (∀ c, (get_result st c).2 = st) := by
  refine ⟨?_, ?_, ?_, ?_, ?_, ?_, ?_, ?_, get_result_state st⟩
  · intro body now newId k hk
    cases body with
    | none => rfl
    | some d =>
      cases d with
      | nil => rfl
      | cons k2 v tl =>
        cases hdev : JsonObj.lookup (.cons k2 v tl) "device_id" with
        | none =>
          simp only [post_command, JsonObj.isEmpty, Bool.false_eq_true, if_false]
          rw [hdev]
        | some dev =>
          cases hact : JsonObj.lookup (.cons k2 v tl) "action" with
          | none =>
            simp only [post_command, JsonObj.isEmpty, Bool.false_eq_true, if_false]
            rw [hdev, hact]
          | some act =>
            have hkd : k ≠ dev := by
              intro hh
              exact hk _ rfl (hdev.trans (congrArg some hh.symm))
            simp only [post_command, JsonObj.isEmpty, Bool.false_eq_true, if_false]
            rw [hdev, hact]
            exact dictGet_set_ne _ _ _ _ hkd
  · intro body now newId
    exact post_command_frame st body now newId
  · intro d now k hk
    unfold get_commands
    cases hq : dictGet st.command_queue (.str d) with
    | none => simp [hq]
    | some cmds =>
      by_cases hc : cmds = []
      · simp [hq, hc]
      · simp [hq, hc, dictGet_set_ne _ _ _ _ hk]
  · intro d now e he
    rw [(get_commands_frame st d now).2.2, dictGet_set_ne _ _ _ _ he]
  · intro d now
    exact ⟨(get_commands_frame st d now).1, (get_commands_frame st d now).2.1⟩
  · intro c file data now k hk
    cases file with
    | none => exact post_result_jsonBranch_results_frame st c data now k hk
    | some f =>
      by_cases hf : f.filename ≠ ""
      · rw [post_result_file_eq st c f data now hf]
        exact dictGet_set_ne _ _ _ _ hk
      · simp only [post_result, hf, if_false]
        exact post_result_jsonBranch_results_frame st c data now k hk
  · intro c file data now
    exact post_result_frame st c file data now
  · intro c file data now p2 hp2
    cases file with
    | none =>
      show dictGet (post_result_jsonBranch st c data now).2.disk p2 = dictGet st.disk p2
      rw [(post_result_jsonBranch_frame st c data now).2.2]
    | some f =>
      by_cases hf : f.filename ≠ ""
      · rw [post_result_file_eq st c f data now hf]
        exact dictGet_set_ne _ _ _ _ (hp2 f rfl)
      · simp only [post_result, hf, if_false]
        rw [(post_result_jsonBranch_frame st c data now).2.2]

/-- Witness for C10: in a concrete state, polling one device leaves
another device's queue untouched, submitting a result for one command
id leaves another id's entry untouched, and fetch leaves the whole
state unchanged. -/
theorem frame_effects_witness :
    dictGet (get_commands c2PriorState "dev" 3).2.command_queue (.str "other")
      = dictGet c2PriorState.command_queue (.str "other")
    ∧ dictGet (post_result c2PriorState "c2" none (some (.bool true)) 9).2.results_store "c1"
      = dictGet c2PriorState.results_store "c1"
    ∧ (get_result c2PriorState "c1").2 = c2PriorState :=
  ⟨(frame_effects c2PriorState).2.2.1 "dev" 3 (.str "other") (by decide),
   (frame_effects c2PriorState).2.2.2.2.2.1 "c2" none (some (.bool true)) 9 "c1" (by decide),
   (frame_effects c2PriorState).2.2.2.2.2.2.2.2 "c1"⟩

end AndrUtility
